import Mathlib

/-!
# Verification of the alpha-vantage MCP server (`src/index.ts`)

A shallow embedding of the single source file `src/index.ts`: an MCP server
exposing 7 tools over the Alpha Vantage HTTP API, plus one shared request
helper `makeAlphaVantageRequest`.

The JSON serialization layer (`JSON.stringify(·, null, 2)` and `JSON.parse`)
is a platform builtin, absent from the repository source; it is modelled here
from the spec's payload description ("an opaque structured value: tree of
string/number/bool/null/array/object"), with numbers restricted to integers
(JavaScript's float-specific printing of non-integers and huge magnitudes is
outside this model).
-/

namespace AlphaVantage

/-! ## JSON values

Upstream payloads. Arrays and objects are represented through a mutual
inductive so that structural recursion and induction stay straightforward.
-/

mutual

/-- A JSON value: the payload tree described by the spec. -/
inductive JVal where
  | null : JVal
  | bool : Bool → JVal
  | num : Int → JVal
  | str : String → JVal
  | arr : JList → JVal
  | obj : JMembers → JVal
  deriving DecidableEq

/-- A list of JSON values (array elements). -/
inductive JList where
  | nil : JList
  | cons : JVal → JList → JList
  deriving DecidableEq

/-- A list of object members, in insertion order. -/
inductive JMembers where
  | nil : JMembers
  | cons : String → JVal → JMembers → JMembers
  deriving DecidableEq

end

/-- JavaScript truthiness test on a JSON value: `!x` is `true` exactly for
`null`, `false`, `0` and the empty string (arrays and objects, even empty,
are truthy objects in JavaScript). -/
def jfalsy : JVal → Bool
  | .null => true
  | .bool b => !b
  | .num n => n == 0
  | .str s => s == ""
  | .arr _ => false
  | .obj _ => false

/-! ## The printer: `JSON.stringify(v, null, 2)`

Modelled from the spec: pretty-printing with a 2-space indent, exactly as
`JSON.stringify` with indent argument `2` produces it. Work happens on
`List Char`; `jsonStringify2` packages the result as a `String`.
-/

/-- `n` spaces. -/
def spaces (n : Nat) : List Char := List.replicate n ' '

/-- The decimal digit character for `n < 10` (and `'0'` past that range). -/
def digitCh : Nat → Char
  | 0 => '0' | 1 => '1' | 2 => '2' | 3 => '3' | 4 => '4'
  | 5 => '5' | 6 => '6' | 7 => '7' | 8 => '8' | 9 => '9'
  | _ => '0'

/-- Decimal digits of a natural number, most significant first. -/
def natDigits (n : Nat) : List Char :=
  if n < 10 then [digitCh n] else natDigits (n / 10) ++ [digitCh (n % 10)]
decreasing_by exact Nat.div_lt_self (by omega) (by omega)

/-- Decimal notation of an integer, as JavaScript prints integral numbers. -/
def printNum (n : Int) : List Char :=
  if n < 0 then '-' :: natDigits n.natAbs else natDigits n.natAbs

/-- The lowercase hex digit character for `n < 16` (and `'0'` past that). -/
def hexCh : Nat → Char
  | 0 => '0' | 1 => '1' | 2 => '2' | 3 => '3' | 4 => '4'
  | 5 => '5' | 6 => '6' | 7 => '7' | 8 => '8' | 9 => '9'
  | 10 => 'a' | 11 => 'b' | 12 => 'c' | 13 => 'd' | 14 => 'e' | 15 => 'f'
  | _ => '0'

/-- How `JSON.stringify` writes one character inside a string literal:
quote and backslash get escaped, the named control characters use their
short escapes, the remaining control characters use `\u00XX`, and everything
else is written verbatim. -/
def escChar (c : Char) : List Char :=
  if c = '"' then ['\\', '"']
  else if c = '\\' then ['\\', '\\']
  else if c.toNat = 8 then ['\\', 'b']
  else if c.toNat = 9 then ['\\', 't']
  else if c.toNat = 10 then ['\\', 'n']
  else if c.toNat = 12 then ['\\', 'f']
  else if c.toNat = 13 then ['\\', 'r']
  else if c.toNat < 32 then
    ['\\', 'u', '0', '0', hexCh (c.toNat / 16), hexCh (c.toNat % 16)]
  else [c]

/-- Escape every character of a string body. -/
def escList : List Char → List Char
  | [] => []
  | c :: cs => escChar c ++ escList cs

/-- A JSON string literal: quote, escaped body, quote. -/
def quoteL (s : String) : List Char := '"' :: (escList s.data ++ ['"'])

mutual

/-- `JSON.stringify(v, null, 2)` at current indentation `i`: the characters
of the value itself; the surrounding container supplies the indentation
before it. -/
def printV (i : Nat) : JVal → List Char
  | .null => 'n' :: ['u', 'l', 'l']
  | .bool true => 't' :: ['r', 'u', 'e']
  | .bool false => 'f' :: ['a', 'l', 's', 'e']
  | .num n => printNum n
  | .str s => quoteL s
  | .arr .nil => ['[', ']']
  | .arr (.cons v vs) =>
      '[' :: '\n' :: (printItems (i + 2) (.cons v vs) ++ '\n' :: (spaces i ++ [']']))
  | .obj .nil => ['{', '}']
  | .obj (.cons k v ms) =>
      '{' :: '\n' :: (printMembers (i + 2) (.cons k v ms) ++ '\n' :: (spaces i ++ ['}']))

/-- The comma-and-newline separated element lines of a nonempty array. -/
def printItems (i : Nat) : JList → List Char
  | .nil => []
  | .cons v .nil => spaces i ++ printV i v
  | .cons v (.cons w ws) =>
      spaces i ++ printV i v ++ ',' :: '\n' :: printItems i (.cons w ws)

/-- The member lines of a nonempty object: `"key": value`. -/
def printMembers (i : Nat) : JMembers → List Char
  | .nil => []
  | .cons k v .nil => spaces i ++ quoteL k ++ ':' :: ' ' :: printV i v
  | .cons k v (.cons k' v' ms) =>
      spaces i ++ quoteL k ++ ':' :: ' ' :: printV i v
        ++ ',' :: '\n' :: printMembers i (.cons k' v' ms)

end

/-- The text the tools put into their success responses:
`JSON.stringify(data, null, 2)`. -/
def jsonStringify2 (v : JVal) : String := String.mk (printV 0 v)

/-! ## The parser: `JSON.parse`

Modelled from the spec: the round-trip direction of "byte-for-byte
round-trippable back to the original structure via JSON parsing".
A recursive-descent reader of the JSON grammar over `List Char`, restricted
to the integer-numeral fragment (matching the payload model above; fraction
and exponent parts are not representable) and to `\uXXXX` escapes below the
surrogate range. Recursion through values is paid for by explicit fuel;
`jsonParse` supplies fuel larger than any value the input can contain. -/

/-- JSON insignificant whitespace: space, tab, line feed, carriage return. -/
def isWs (c : Char) : Bool :=
  c = ' ' || c = '\t' || c = '\n' || c = '\r'

/-- Drop leading JSON whitespace. -/
def skipWs : List Char → List Char
  | [] => []
  | c :: cs => if isWs c then skipWs cs else c :: cs

/-- Split off the longest leading run of decimal digits. -/
def takeDigits : List Char → List Char × List Char
  | [] => ([], [])
  | c :: cs =>
      if c.isDigit then
        let p := takeDigits cs
        (c :: p.1, p.2)
      else ([], c :: cs)

/-- The numeric value of a decimal digit character. -/
def digitVal (c : Char) : Nat := c.toNat - 48

/-- Read a digit run as a natural number, most significant digit first. -/
def digitsToNat (ds : List Char) : Nat :=
  ds.foldl (fun a c => a * 10 + digitVal c) 0

/-- Parse a nonempty digit run into a natural number, returning the rest. -/
def parseNatTok (cs : List Char) : Option (Nat × List Char) :=
  let p := takeDigits cs
  if p.1.isEmpty then none else some (digitsToNat p.1, p.2)

/-- The numeric value of a hex digit character, either case. -/
def hexVal (c : Char) : Option Nat :=
  if c = '0' then some 0 else if c = '1' then some 1
  else if c = '2' then some 2 else if c = '3' then some 3
  else if c = '4' then some 4 else if c = '5' then some 5
  else if c = '6' then some 6 else if c = '7' then some 7
  else if c = '8' then some 8 else if c = '9' then some 9
  else if c = 'a' || c = 'A' then some 10 else if c = 'b' || c = 'B' then some 11
  else if c = 'c' || c = 'C' then some 12 else if c = 'd' || c = 'D' then some 13
  else if c = 'e' || c = 'E' then some 14 else if c = 'f' || c = 'F' then some 15
  else none

/-- Match an exact sequence of characters, returning what follows it. -/
def expectL (pat cs : List Char) : Option (List Char) :=
  match pat, cs with
  | [], rest => some rest
  | p :: ps, c :: rest => if c = p then expectL ps rest else none
  | _ :: _, [] => none

/-- Read a string literal body after the opening quote, accumulating
characters in reverse: ends at the closing quote; understands the named
escapes, `\/`, and non-surrogate `\uXXXX`; rejects raw control characters,
as `JSON.parse` does. -/
def parseStringBody : List Char → List Char → Option (String × List Char)
  | [], _ => none
  | c :: cs, acc =>
      if c = '"' then some (String.mk acc.reverse, cs)
      else if c = '\\' then
        match cs with
        | [] => none
        | e :: cs' =>
            if e = '"' then parseStringBody cs' ('"' :: acc)
            else if e = '\\' then parseStringBody cs' ('\\' :: acc)
            else if e = '/' then parseStringBody cs' ('/' :: acc)
            else if e = 'b' then parseStringBody cs' (Char.ofNat 8 :: acc)
            else if e = 'f' then parseStringBody cs' (Char.ofNat 12 :: acc)
            else if e = 'n' then parseStringBody cs' ('\n' :: acc)
            else if e = 'r' then parseStringBody cs' ('\r' :: acc)
            else if e = 't' then parseStringBody cs' ('\t' :: acc)
            else if e = 'u' then
              match cs' with
              | h1 :: h2 :: h3 :: h4 :: cs'' =>
                  match hexVal h1, hexVal h2, hexVal h3, hexVal h4 with
                  | some a, some b, some c', some d =>
                      let n := ((a * 16 + b) * 16 + c') * 16 + d
                      if n < 0xD800 then
                        parseStringBody cs'' (Char.ofNat n :: acc)
                      else none
                  | _, _, _, _ => none
              | _ => none
            else none
      else if c.toNat < 32 then none
      else parseStringBody cs (c :: acc)

mutual

/-- Read one JSON value (after skipping leading whitespace), returning the
value and the unconsumed rest.  `fuel` bounds the nesting the reader will
follow; `none` on exhausted fuel or ill-formed input. -/
def parseVal : Nat → List Char → Option (JVal × List Char)
  | 0, _ => none
  | fuel + 1, cs =>
      match skipWs cs with
      | [] => none
      | c :: cs' =>
          if c = 'n' then
            (expectL ['u', 'l', 'l'] cs').map (fun r => (JVal.null, r))
          else if c = 't' then
            (expectL ['r', 'u', 'e'] cs').map (fun r => (JVal.bool true, r))
          else if c = 'f' then
            (expectL ['a', 'l', 's', 'e'] cs').map (fun r => (JVal.bool false, r))
          else if c = '"' then
            (parseStringBody cs' []).map (fun p => (JVal.str p.1, p.2))
          else if c = '[' then
            match skipWs cs' with
            | [] => none
            | d :: ds =>
                if d = ']' then some (JVal.arr .nil, ds)
                else
                  (parseItems fuel (d :: ds)).map (fun p => (JVal.arr p.1, p.2))
          else if c = '{' then
            match skipWs cs' with
            | [] => none
            | d :: ds =>
                if d = '}' then some (JVal.obj .nil, ds)
                else
                  (parseMembers fuel (d :: ds)).map (fun p => (JVal.obj p.1, p.2))
          else if c = '-' then
            (parseNatTok cs').map (fun p => (JVal.num (-(p.1 : Int)), p.2))
          else if c.isDigit then
            (parseNatTok (c :: cs')).map (fun p => (JVal.num (p.1 : Int), p.2))
          else none

/-- Read the elements of a nonempty array, up to and including the
closing bracket. -/
def parseItems : Nat → List Char → Option (JList × List Char)
  | 0, _ => none
  | fuel + 1, cs => do
      let (v, r1) ← parseVal fuel cs
      match skipWs r1 with
      | [] => none
      | c :: r2 =>
          if c = ',' then
            let (vs, rest) ← parseItems fuel r2
            some (.cons v vs, rest)
          else if c = ']' then some (.cons v .nil, r2)
          else none

/-- Read the members of a nonempty object, up to and including the
closing brace. -/
def parseMembers : Nat → List Char → Option (JMembers × List Char)
  | 0, _ => none
  | fuel + 1, cs => do
      match skipWs cs with
      | [] => none
      | c :: r0 =>
          if c = '"' then do
            let (k, r1) ← parseStringBody r0 []
            match skipWs r1 with
            | [] => none
            | d :: r2 =>
                if d = ':' then do
                  let (v, r3) ← parseVal fuel r2
                  match skipWs r3 with
                  | [] => none
                  | e :: r4 =>
                      if e = ',' then do
                        let (ms, rest) ← parseMembers fuel r4
                        some (.cons k v ms, rest)
                      else if e = '}' then some (.cons k v .nil, r4)
                      else none
                else none
          else none

end

/-- `JSON.parse`: read one value, then require the rest of the input to be
whitespace.  The fuel, one more than the character count, exceeds the
nesting depth of any value the input can denote. -/
def jsonParse (s : String) : Option JVal :=
  match parseVal (s.data.length + 1) s.data with
  | some (v, rest) => if (skipWs rest).isEmpty then some v else none
  | none => none

/-! ## Round-trip: the parser reads back exactly what the printer wrote -/

/-- Entirely made of JSON whitespace. -/
def wsOnly : List Char → Bool
  | [] => true
  | c :: cs => isWs c && wsOnly cs

/-- Does not begin with a decimal digit, so it cannot extend a number token. -/
def numOk : List Char → Bool
  | [] => true
  | c :: _ => !c.isDigit

theorem skipWs_cons_of_not_ws {c : Char} (h : isWs c = false) (l : List Char) :
    skipWs (c :: l) = c :: l := by
  simp [skipWs, h]

theorem skipWs_append_of_wsOnly {w : List Char} (h : wsOnly w = true) (l : List Char) :
    skipWs (w ++ l) = skipWs l := by
  induction w with
  | nil => rfl
  | cons c cs ih =>
      simp only [wsOnly, Bool.and_eq_true] at h
      simp [skipWs, h.1, ih h.2]

theorem wsOnly_spaces (n : Nat) : wsOnly (spaces n) = true := by
  induction n with
  | zero => rfl
  | succ k ih => simpa [spaces, List.replicate_succ, wsOnly, isWs] using ih

theorem skipWs_spaces (n : Nat) (l : List Char) : skipWs (spaces n ++ l) = skipWs l :=
  skipWs_append_of_wsOnly (wsOnly_spaces n) l

/-- `parseVal` looks at its input only through `skipWs`. -/
theorem parseVal_congr {cs₁ cs₂ : List Char} (h : skipWs cs₁ = skipWs cs₂) (fuel : Nat) :
    parseVal fuel cs₁ = parseVal fuel cs₂ := by
  cases fuel with
  | zero => rfl
  | succ f => simp only [parseVal, h]

theorem parseItems_congr {cs₁ cs₂ : List Char} (h : skipWs cs₁ = skipWs cs₂) (fuel : Nat) :
    parseItems fuel cs₁ = parseItems fuel cs₂ := by
  cases fuel with
  | zero => rfl
  | succ f => simp only [parseItems, parseVal_congr h]

theorem parseMembers_congr {cs₁ cs₂ : List Char} (h : skipWs cs₁ = skipWs cs₂) (fuel : Nat) :
    parseMembers fuel cs₁ = parseMembers fuel cs₂ := by
  cases fuel with
  | zero => rfl
  | succ f => simp only [parseMembers, h]

/-! ### Decimal numerals -/

theorem digitCh_isDigit {n : Nat} (h : n < 10) : (digitCh n).isDigit = true := by
  interval_cases n <;> decide

theorem digitVal_digitCh {n : Nat} (h : n < 10) : digitVal (digitCh n) = n := by
  interval_cases n <;> decide

theorem natDigits_ne_nil (n : Nat) : natDigits n ≠ [] := by
  rw [natDigits]
  split <;> simp

theorem natDigits_all_digits (n : Nat) : ∀ c ∈ natDigits n, c.isDigit = true := by
  induction n using natDigits.induct with
  | case1 n h =>
      rw [natDigits, if_pos h]
      intro c hc
      simp only [List.mem_singleton] at hc
      exact hc ▸ digitCh_isDigit h
  | case2 n h ih =>
      rw [natDigits, if_neg h]
      intro c hc
      rcases List.mem_append.mp hc with h1 | h1
      · exact ih c h1
      · simp only [List.mem_singleton] at h1
        exact h1 ▸ digitCh_isDigit (Nat.mod_lt _ (by omega))

theorem digitsToNat_append_one (l : List Char) (c : Char) :
    digitsToNat (l ++ [c]) = digitsToNat l * 10 + digitVal c := by
  simp [digitsToNat, List.foldl_append]

theorem digitsToNat_natDigits (n : Nat) : digitsToNat (natDigits n) = n := by
  induction n using natDigits.induct with
  | case1 n h =>
      rw [natDigits, if_pos h]
      simp [digitsToNat, digitVal_digitCh h]
  | case2 n h ih =>
      rw [natDigits, if_neg h]
      rw [digitsToNat_append_one, ih, digitVal_digitCh (Nat.mod_lt _ (by omega))]
      omega

theorem takeDigits_append {ds : List Char} (hds : ∀ c ∈ ds, c.isDigit = true)
    {rest : List Char} (hrest : numOk rest = true) :
    takeDigits (ds ++ rest) = (ds, rest) := by
  induction ds with
  | nil =>
      cases rest with
      | nil => rfl
      | cons c cs =>
          simp only [numOk, Bool.not_eq_true'] at hrest
          simp [takeDigits, hrest]
  | cons c cs ih =>
      have hc : c.isDigit = true := hds c (List.mem_cons_self c cs)
      have ih' := ih fun d hd => hds d (List.mem_cons_of_mem c hd)
      simp [takeDigits, hc, ih']

theorem parseNatTok_natDigits (m : Nat) {rest : List Char} (hrest : numOk rest = true) :
    parseNatTok (natDigits m ++ rest) = some (m, rest) := by
  rw [parseNatTok, takeDigits_append (natDigits_all_digits m) hrest]
  simp [natDigits_ne_nil m, List.isEmpty_iff, digitsToNat_natDigits]

/-! ### Character classifications -/

theorem not_ws_of_digit {c : Char} (h : c.isDigit = true) : isWs c = false := by
  rcases eq_or_ne c ' ' with rfl | h1; · exact absurd h (by decide)
  rcases eq_or_ne c '\t' with rfl | h2; · exact absurd h (by decide)
  rcases eq_or_ne c '\n' with rfl | h3; · exact absurd h (by decide)
  rcases eq_or_ne c '\r' with rfl | h4; · exact absurd h (by decide)
  simp [isWs, h1, h2, h3, h4]

theorem digit_ne {c d : Char} (h : c.isDigit = true) (hd : d.isDigit = false) : c ≠ d := by
  rintro rfl; rw [h] at hd; exact Bool.noConfusion hd

/-- Every printed value starts with a non-whitespace character that is
neither a closing bracket nor a closing brace. -/
theorem printV_head (v : JVal) (i : Nat) :
    ∃ c t, printV i v = c :: t ∧ isWs c = false ∧ c ≠ ']' ∧ c ≠ '}' := by
  cases v with
  | null => refine ⟨'n', _, rfl, ?_, ?_, ?_⟩ <;> decide
  | bool b =>
      cases b with
      | true => refine ⟨'t', _, rfl, ?_, ?_, ?_⟩ <;> decide
      | false => refine ⟨'f', _, rfl, ?_, ?_, ?_⟩ <;> decide
  | num n =>
      show ∃ c t, printNum n = c :: t ∧ _
      rw [printNum]
      by_cases h : n < 0
      · rw [if_pos h]; refine ⟨'-', _, rfl, ?_, ?_, ?_⟩ <;> decide
      · rw [if_neg h]
        cases hnd : natDigits n.natAbs with
        | nil => exact absurd hnd (natDigits_ne_nil _)
        | cons d t =>
            have hd : d.isDigit = true :=
              natDigits_all_digits _ d (hnd ▸ List.mem_cons_self d t)
            exact ⟨d, t, rfl, not_ws_of_digit hd,
              digit_ne hd (by decide), digit_ne hd (by decide)⟩
  | str s => refine ⟨'"', _, rfl, ?_, ?_, ?_⟩ <;> decide
  | arr l =>
      cases l with
      | nil => refine ⟨'[', _, rfl, ?_, ?_, ?_⟩ <;> decide
      | cons v vs => refine ⟨'[', _, rfl, ?_, ?_, ?_⟩ <;> decide
  | obj l =>
      cases l with
      | nil => refine ⟨'{', _, rfl, ?_, ?_, ?_⟩ <;> decide
      | cons k v ms => refine ⟨'{', _, rfl, ?_, ?_, ?_⟩ <;> decide

/-! ### Fuel bounds: enough fuel for the reader to follow a printed value -/

mutual

/-- Fuel sufficient for `parseVal` to read a printed `v`. -/
def fuelV : JVal → Nat
  | .null => 1
  | .bool _ => 1
  | .num _ => 1
  | .str _ => 1
  | .arr .nil => 1
  | .arr (.cons v vs) => 1 + fuelItems (.cons v vs)
  | .obj .nil => 1
  | .obj (.cons k v ms) => 1 + fuelMembers (.cons k v ms)

/-- Fuel sufficient for `parseItems` to read printed elements. -/
def fuelItems : JList → Nat
  | .nil => 1
  | .cons v vs => 1 + max (fuelV v) (fuelItems vs)

/-- Fuel sufficient for `parseMembers` to read printed members. -/
def fuelMembers : JMembers → Nat
  | .nil => 1
  | .cons _ v ms => 1 + max (fuelV v) (fuelMembers ms)

end

/-! ### The text that follows one printed element or member -/

/-- After the first element of a printed array: either the separator and the
next elements, or the newline, closing indentation and bracket. -/
def itemsTail (i : Nat) (tail rest : List Char) : JList → List Char
  | .nil => '\n' :: (tail ++ ']' :: rest)
  | .cons w ws =>
      ',' :: '\n' :: (spaces i ++ printV i w ++ itemsTail i tail rest ws)

/-- After the first member of a printed object. -/
def membersTail (i : Nat) (tail rest : List Char) : JMembers → List Char
  | .nil => '\n' :: (tail ++ '}' :: rest)
  | .cons k v ms =>
      ',' :: '\n' :: (spaces i ++ quoteL k ++ ':' :: ' ' :: printV i v
        ++ membersTail i tail rest ms)

theorem itemsTail_numOk (i : Nat) (tail rest : List Char) (vs : JList) :
    numOk (itemsTail i tail rest vs) = true := by
  cases vs <;> simp [itemsTail, numOk]

theorem membersTail_numOk (i : Nat) (tail rest : List Char) (ms : JMembers) :
    numOk (membersTail i tail rest ms) = true := by
  cases ms <;> simp [membersTail, numOk]

/-- The printed lines of a nonempty array, followed by the closing
furniture, refactored around its first element. -/
theorem printItems_eq_itemsTail (i : Nat) (v : JVal) (vs : JList)
    (tail rest : List Char) :
    printItems i (.cons v vs) ++ '\n' :: (tail ++ ']' :: rest)
      = spaces i ++ (printV i v ++ itemsTail i tail rest vs) := by
  cases vs with
  | nil => simp [printItems, itemsTail, List.append_assoc]
  | cons w ws =>
      rw [printItems, itemsTail]
      simp only [List.append_assoc, List.cons_append]
      rw [printItems_eq_itemsTail i w ws tail rest]
termination_by sizeOf vs

/-- The printed lines of a nonempty object, refactored around its first
member. -/
theorem printMembers_eq_membersTail (i : Nat) (k : String) (v : JVal)
    (ms : JMembers) (tail rest : List Char) :
    printMembers i (.cons k v ms) ++ '\n' :: (tail ++ '}' :: rest)
      = spaces i ++ (quoteL k ++ ':' :: ' ' :: printV i v
          ++ membersTail i tail rest ms) := by
  cases ms with
  | nil => simp [printMembers, membersTail, List.append_assoc]
  | cons k' v' ms' =>
      rw [printMembers, membersTail]
      simp only [List.append_assoc, List.cons_append]
      rw [printMembers_eq_membersTail i k' v' ms' tail rest]
      simp [List.append_assoc]
termination_by sizeOf ms

/-! ### String literals -/

theorem hexVal_hexCh {n : Nat} (h : n < 16) : hexVal (hexCh n) = some n := by
  interval_cases n <;> decide

theorem parseStringBody_escList (l : List Char) : ∀ (acc rest : List Char),
    parseStringBody (escList l ++ '"' :: rest) acc
      = some (String.mk (acc.reverse ++ l), rest) := by
  induction l with
  | nil =>
      intro acc rest
      rw [escList, List.nil_append, parseStringBody.eq_def]
      simp
  | cons c cs ih =>
      intro acc rest
      rw [escList, escChar, List.append_assoc]
      by_cases h1 : c = '"'
      · subst h1
        rw [if_pos rfl, List.cons_append, List.cons_append, List.nil_append,
            parseStringBody.eq_def]
        simp [ih]
      rw [if_neg h1]
      by_cases h2 : c = '\\'
      · subst h2
        rw [if_pos rfl, List.cons_append, List.cons_append, List.nil_append,
            parseStringBody.eq_def]
        simp [ih]
      rw [if_neg h2]
      by_cases h8 : c.toNat = 8
      · have hc : Char.ofNat 8 = c := by rw [← h8]; exact Char.ofNat_toNat c
        rw [if_pos h8, List.cons_append, List.cons_append, List.nil_append,
            parseStringBody.eq_def]
        simp [ih]
        rw [hc]
      rw [if_neg h8]
      by_cases h9 : c.toNat = 9
      · have hc : Char.ofNat 9 = c := by rw [← h9]; exact Char.ofNat_toNat c
        have ht : ('\t' : Char) = c := hc
        rw [if_pos h9, List.cons_append, List.cons_append, List.nil_append,
            parseStringBody.eq_def]
        simp [ih]
        rw [ht]
      rw [if_neg h9]
      by_cases h10 : c.toNat = 10
      · have hc : Char.ofNat 10 = c := by rw [← h10]; exact Char.ofNat_toNat c
        have ht : ('\n' : Char) = c := hc
        rw [if_pos h10, List.cons_append, List.cons_append, List.nil_append,
            parseStringBody.eq_def]
        simp [ih]
        rw [ht]
      rw [if_neg h10]
      by_cases h12 : c.toNat = 12
      · have hc : Char.ofNat 12 = c := by rw [← h12]; exact Char.ofNat_toNat c
        rw [if_pos h12, List.cons_append, List.cons_append, List.nil_append,
            parseStringBody.eq_def]
        simp [ih]
        rw [hc]
      rw [if_neg h12]
      by_cases h13 : c.toNat = 13
      · have hc : Char.ofNat 13 = c := by rw [← h13]; exact Char.ofNat_toNat c
        have ht : ('\r' : Char) = c := hc
        rw [if_pos h13, List.cons_append, List.cons_append, List.nil_append,
            parseStringBody.eq_def]
        simp [ih]
        rw [ht]
      rw [if_neg h13]
      by_cases h32 : c.toNat < 32
      · have hdiv : c.toNat / 16 < 16 := by omega
        have hmod : c.toNat % 16 < 16 := by omega
        have hval : ((0 * 16 + 0) * 16 + c.toNat / 16) * 16 + c.toNat % 16 = c.toNat := by
          omega
        have hlt : c.toNat < 0xD800 := by omega
        have hc : Char.ofNat c.toNat = c := Char.ofNat_toNat c
        rw [if_pos h32]
        simp only [List.cons_append, List.nil_append]
        rw [parseStringBody.eq_def]
        have h0 : hexVal '0' = some 0 := by decide
        simp only [ih, hexVal_hexCh hdiv, hexVal_hexCh hmod, h0]
        simp only [hval, hlt, if_pos, ite_true, hc]
        simp [hc]
      rw [if_neg h32, List.cons_append, List.nil_append, parseStringBody.eq_def]
      simp [h1, h2, h32, ih]


/-- Repackaging a string's characters gives back the string. -/
theorem stringMk_data (s : String) : String.mk s.data = s := rfl

/-- A printed natural-number numeral parses back to that number. -/
theorem parseVal_natDigits (m : Nat) (f : Nat) (rest : List Char) (hr : numOk rest = true) :
    parseVal (f + 1) (natDigits m ++ rest) = some (.num (m : Int), rest) := by
  cases hnd : natDigits m with
  | nil => exact absurd hnd (natDigits_ne_nil _)
  | cons d t =>
      have hd : d.isDigit = true :=
        natDigits_all_digits _ d (hnd ▸ List.mem_cons_self d t)
      have h1 : d ≠ 'n' := digit_ne hd (by decide)
      have h2 : d ≠ 't' := digit_ne hd (by decide)
      have h3 : d ≠ 'f' := digit_ne hd (by decide)
      have h4 : d ≠ '"' := digit_ne hd (by decide)
      have h5 : d ≠ '[' := digit_ne hd (by decide)
      have h6 : d ≠ '{' := digit_ne hd (by decide)
      have h7 : d ≠ '-' := digit_ne hd (by decide)
      rw [parseVal]
      simp only [List.cons_append]
      rw [skipWs_cons_of_not_ws (not_ws_of_digit hd)]
      simp only [h1, h2, h3, h4, h5, h6, h7, hd, if_neg, ite_false, if_false, ite_true,
        if_true]
      rw [← List.cons_append, ← hnd, parseNatTok_natDigits m hr]
      rfl

/-- A printed integer numeral parses back to that integer. -/
theorem parseVal_printNum (n : Int) (f : Nat) (rest : List Char) (hr : numOk rest = true) :
    parseVal (f + 1) (printNum n ++ rest) = some (.num n, rest) := by
  rw [printNum]
  by_cases hneg : n < 0
  · rw [if_pos hneg, parseVal]
    simp only [List.cons_append]
    rw [skipWs_cons_of_not_ws (by decide)]
    simp only [if_neg (by decide : ¬('-' : Char) = 'n'), if_neg (by decide : ¬('-' : Char) = 't'),
      if_neg (by decide : ¬('-' : Char) = 'f'), if_neg (by decide : ¬('-' : Char) = '"'),
      if_neg (by decide : ¬('-' : Char) = '['), if_neg (by decide : ¬('-' : Char) = '{'),
      if_pos rfl]
    rw [parseNatTok_natDigits _ hr]
    have h : -((n.natAbs : Int)) = n := by omega
    simp only [Option.map_some', h]
    simp
  · rw [if_neg hneg]
    have h : (n.natAbs : Int) = n := by omega
    rw [parseVal_natDigits n.natAbs f rest hr, h]

/-! ### The main round-trip theorems -/

mutual

theorem parse_printV (v : JVal) :
    ∀ (i fuel : Nat) (rest : List Char), fuelV v ≤ fuel → numOk rest = true →
    parseVal fuel (printV i v ++ rest) = some (v, rest) := by
  cases v with
  | null =>
      intro i fuel rest hf hr
      cases fuel with
      | zero => simp [fuelV] at hf
      | succ f => simp [printV, parseVal, skipWs, isWs, expectL]
  | bool b =>
      intro i fuel rest hf hr
      cases fuel with
      | zero => simp [fuelV] at hf
      | succ f => cases b <;> simp [printV, parseVal, skipWs, isWs, expectL]
  | num n =>
      intro i fuel rest hf hr
      cases fuel with
      | zero => simp [fuelV] at hf
      | succ f => simpa [printV] using parseVal_printNum n f rest hr
  | str s =>
      intro i fuel rest hf hr
      cases fuel with
      | zero => simp [fuelV] at hf
      | succ f =>
          simp [printV, quoteL, parseVal, skipWs, isWs, List.append_assoc,
            parseStringBody_escList]
  | arr l =>
      cases l with
      | nil =>
          intro i fuel rest hf hr
          cases fuel with
          | zero => simp [fuelV] at hf
          | succ f => simp [printV, parseVal, skipWs, isWs]
      | cons v vs =>
          intro i fuel rest hf hr
          cases fuel with
          | zero => simp [fuelV] at hf
          | succ f =>
              have hf' : fuelItems (.cons v vs) ≤ f := by simp [fuelV] at hf; omega
              simp only [printV, List.cons_append, List.append_assoc, List.nil_append]
              rw [printItems_eq_itemsTail (i + 2) v vs (spaces i) rest]
              obtain ⟨c, t, hct, hcw, hc1, hc2⟩ := printV_head v (i + 2)
              rw [parseVal]
              rw [skipWs_cons_of_not_ws (by decide)]
              simp only [if_neg (by decide : ¬('[' : Char) = 'n'),
                if_neg (by decide : ¬('[' : Char) = 't'),
                if_neg (by decide : ¬('[' : Char) = 'f'),
                if_neg (by decide : ¬('[' : Char) = '"'), if_pos rfl]
              rw [show skipWs ('\n' :: (spaces (i + 2) ++ (printV (i + 2) v
                    ++ itemsTail (i + 2) (spaces i) rest vs)))
                  = printV (i + 2) v ++ itemsTail (i + 2) (spaces i) rest vs by
                rw [show skipWs ('\n' :: (spaces (i + 2) ++ (printV (i + 2) v
                      ++ itemsTail (i + 2) (spaces i) rest vs)))
                    = skipWs (spaces (i + 2) ++ (printV (i + 2) v
                      ++ itemsTail (i + 2) (spaces i) rest vs)) by simp [skipWs, isWs]]
                rw [skipWs_spaces, hct, List.cons_append,
                  skipWs_cons_of_not_ws hcw]]
              rw [hct, List.cons_append]
              rw [if_pos trivial]
              simp only [hc1, ite_false, if_false]
              rw [← List.cons_append, ← hct]
              rw [parse_printItems v vs (i + 2) f (spaces i) rest hf' (wsOnly_spaces i)]
              rfl
  | obj l =>
      cases l with
      | nil =>
          intro i fuel rest hf hr
          cases fuel with
          | zero => simp [fuelV] at hf
          | succ f => simp [printV, parseVal, skipWs, isWs]
      | cons k v ms =>
          intro i fuel rest hf hr
          cases fuel with
          | zero => simp [fuelV] at hf
          | succ f =>
              have hf' : fuelMembers (.cons k v ms) ≤ f := by simp [fuelV] at hf; omega
              simp only [printV, List.cons_append, List.append_assoc, List.nil_append]
              rw [printMembers_eq_membersTail (i + 2) k v ms (spaces i) rest]
              rw [parseVal]
              rw [skipWs_cons_of_not_ws (by decide)]
              simp only [if_neg (by decide : ¬('{' : Char) = 'n'),
                if_neg (by decide : ¬('{' : Char) = 't'),
                if_neg (by decide : ¬('{' : Char) = 'f'),
                if_neg (by decide : ¬('{' : Char) = '"'),
                if_neg (by decide : ¬('{' : Char) = '['), if_pos rfl]
              rw [show skipWs ('\n' :: (spaces (i + 2) ++ (quoteL k
                    ++ ':' :: ' ' :: printV (i + 2) v
                    ++ membersTail (i + 2) (spaces i) rest ms)))
                  = '"' :: (escList k.data ++ ['"']
                    ++ (':' :: ' ' :: printV (i + 2) v
                      ++ membersTail (i + 2) (spaces i) rest ms)) by
                rw [show skipWs ('\n' :: (spaces (i + 2) ++ (quoteL k
                      ++ ':' :: ' ' :: printV (i + 2) v
                      ++ membersTail (i + 2) (spaces i) rest ms)))
                    = skipWs (spaces (i + 2) ++ (quoteL k
                      ++ ':' :: ' ' :: printV (i + 2) v
                      ++ membersTail (i + 2) (spaces i) rest ms)) by simp [skipWs, isWs]]
                rw [skipWs_spaces]
                simp only [quoteL, List.cons_append, List.append_assoc]
                rw [skipWs_cons_of_not_ws (by decide)]]
              rw [if_pos trivial]
              simp only [if_neg (by decide : ¬('"' : Char) = '}'), ite_false, if_false]
              rw [show ('"' : Char) :: (escList k.data ++ ['"']
                    ++ (':' :: ' ' :: printV (i + 2) v
                      ++ membersTail (i + 2) (spaces i) rest ms))
                  = quoteL k ++ ':' :: ' ' :: printV (i + 2) v
                      ++ membersTail (i + 2) (spaces i) rest ms by
                simp [quoteL, List.cons_append, List.append_assoc]]
              rw [parse_printMembers k v ms (i + 2) f (spaces i) rest hf' (wsOnly_spaces i)]
              rfl
termination_by sizeOf v

theorem parse_printItems (v : JVal) (vs : JList) :
    ∀ (i fuel : Nat) (tail rest : List Char),
    fuelItems (.cons v vs) ≤ fuel → wsOnly tail = true →
    parseItems fuel (printV i v ++ itemsTail i tail rest vs)
      = some (.cons v vs, rest) := by
  intro i fuel tail rest hf ht
  cases fuel with
  | zero => simp [fuelItems] at hf
  | succ f =>
      have hv : fuelV v ≤ f := by simp [fuelItems] at hf; omega
      have hvs : fuelItems vs ≤ f := by simp [fuelItems] at hf; omega
      simp only [parseItems]
      rw [parse_printV v i f _ hv (itemsTail_numOk i tail rest vs)]
      cases vs with
      | nil =>
          simp only [itemsTail, Option.bind_eq_bind, Option.some_bind]
          rw [show skipWs ('\n' :: (tail ++ ']' :: rest)) = ']' :: rest by
            simp [skipWs, isWs, skipWs_append_of_wsOnly ht]]
          simp
      | cons w ws =>
          simp only [itemsTail, Option.bind_eq_bind, Option.some_bind]
          rw [skipWs_cons_of_not_ws (by decide : isWs ',' = false)]
          simp only [if_pos rfl]
          rw [parseItems_congr (show skipWs ('\n' :: (spaces i ++ printV i w
                ++ itemsTail i tail rest ws))
              = skipWs (printV i w ++ itemsTail i tail rest ws) by
            simp [skipWs, isWs, List.append_assoc, skipWs_spaces]) f]
          rw [parse_printItems w ws i f tail rest hvs ht]
          rfl
termination_by (1 + sizeOf v + sizeOf vs : Nat)

theorem parse_printMembers (k : String) (v : JVal) (ms : JMembers) :
    ∀ (i fuel : Nat) (tail rest : List Char),
    fuelMembers (.cons k v ms) ≤ fuel → wsOnly tail = true →
    parseMembers fuel (quoteL k ++ ':' :: ' ' :: printV i v
        ++ membersTail i tail rest ms)
      = some (.cons k v ms, rest) := by
  intro i fuel tail rest hf ht
  cases fuel with
  | zero => simp [fuelMembers] at hf
  | succ f =>
      have hv : fuelV v ≤ f := by simp [fuelMembers] at hf; omega
      have hms : fuelMembers ms ≤ f := by simp [fuelMembers] at hf; omega
      simp only [parseMembers]
      simp only [quoteL, List.cons_append, List.append_assoc, List.singleton_append]
      rw [skipWs_cons_of_not_ws (by decide)]
      simp only [if_pos rfl]
      rw [parseStringBody_escList k.data []]
      simp only [List.reverse_nil, List.nil_append, stringMk_data,
        Option.bind_eq_bind, Option.some_bind]
      rw [skipWs_cons_of_not_ws (by decide : isWs ':' = false)]
      simp only [if_pos rfl]
      rw [parseVal_congr (show skipWs (' ' :: (printV i v ++ membersTail i tail rest ms))
            = skipWs (printV i v ++ membersTail i tail rest ms) by
          simp [skipWs, isWs]) f]
      rw [parse_printV v i f _ hv (membersTail_numOk i tail rest ms)]
      cases ms with
      | nil =>
          simp only [membersTail, Option.bind_eq_bind, Option.some_bind]
          rw [show skipWs ('\n' :: (tail ++ '}' :: rest)) = '}' :: rest by
            simp [skipWs, isWs, skipWs_append_of_wsOnly ht]]
          simp
      | cons k' v' ms' =>
          simp only [membersTail, Option.bind_eq_bind, Option.some_bind]
          rw [skipWs_cons_of_not_ws (by decide : isWs ',' = false)]
          simp only [if_pos rfl]
          rw [parseMembers_congr (show skipWs ('\n' :: (spaces i ++ quoteL k'
                ++ ':' :: ' ' :: printV i v' ++ membersTail i tail rest ms'))
              = skipWs (quoteL k' ++ ':' :: ' ' :: printV i v'
                  ++ membersTail i tail rest ms') by
            simp [skipWs, isWs, List.append_assoc, skipWs_spaces]) f]
          rw [parse_printMembers k' v' ms' i f tail rest hms ht]
          rfl
termination_by (1 + sizeOf v + sizeOf ms : Nat)

end

end AlphaVantage
namespace AlphaVantage

mutual

theorem fuelV_le_length (v : JVal) : ∀ i : Nat, fuelV v ≤ (printV i v).length := by
  cases v with
  | null => intro i; simp [fuelV, printV]
  | bool b => intro i; cases b <;> simp [fuelV, printV]
  | num n =>
      intro i
      simp only [fuelV, printV, printNum]
      have h := natDigits_ne_nil n.natAbs
      have h2 : 0 < (natDigits n.natAbs).length := List.length_pos.mpr h
      split <;> simp <;> omega
  | str s => intro i; simp [fuelV, printV, quoteL]
  | arr l =>
      cases l with
      | nil => intro i; simp [fuelV, printV]
      | cons v vs =>
          intro i
          have hb := fuelItems_le_length v vs (i + 2)
          simp only [fuelV, printV, List.length_cons, List.length_append]
          omega
  | obj l =>
      cases l with
      | nil => intro i; simp [fuelV, printV]
      | cons k v ms =>
          intro i
          have hb := fuelMembers_le_length k v ms (i + 2)
          simp only [fuelV, printV, List.length_cons, List.length_append]
          omega
termination_by sizeOf v

theorem fuelItems_le_length (v : JVal) (vs : JList) :
    ∀ i : Nat, fuelItems (.cons v vs) ≤ (printItems i (.cons v vs)).length + 1 := by
  intro i
  have ha := fuelV_le_length v i
  obtain ⟨c, t, hct, -, -, -⟩ := printV_head v i
  have hlen : 0 < (printV i v).length := by rw [hct]; simp
  cases vs with
  | nil =>
      simp only [fuelItems, printItems, List.length_append]
      omega
  | cons w ws =>
      have hb := fuelItems_le_length w ws i
      simp only [fuelItems, printItems, List.length_append, List.length_cons] at *
      omega
termination_by (1 + sizeOf v + sizeOf vs : Nat)

theorem fuelMembers_le_length (k : String) (v : JVal) (ms : JMembers) :
    ∀ i : Nat, fuelMembers (.cons k v ms) ≤ (printMembers i (.cons k v ms)).length + 1 := by
  intro i
  have ha := fuelV_le_length v i
  obtain ⟨c, t, hct, -, -, -⟩ := printV_head v i
  have hlen : 0 < (printV i v).length := by rw [hct]; simp
  cases ms with
  | nil =>
      simp only [fuelMembers, printMembers, List.length_append, List.length_cons]
      omega
  | cons k' v' ms' =>
      have hb := fuelMembers_le_length k' v' ms' i
      simp only [fuelMembers, printMembers, List.length_append, List.length_cons] at *
      omega
termination_by (1 + sizeOf v + sizeOf ms : Nat)

end

/-- Round trip: `JSON.parse` reads `JSON.stringify(v, null, 2)` back to `v`
itself, for every payload `v`. -/
theorem jsonParse_jsonStringify2 (v : JVal) : jsonParse (jsonStringify2 v) = some v := by
  have hfuel : fuelV v ≤ (printV 0 v).length + 1 :=
    le_trans (fuelV_le_length v 0) (by omega)
  have h := parse_printV v 0 ((printV 0 v).length + 1) [] hfuel rfl
  rw [List.append_nil] at h
  rw [jsonStringify2, jsonParse]
  simp only [stringMk_data]
  rw [h]
  simp [skipWs]


/-! ## The MCP server: `src/index.ts`

The embedding of the repository's single source file. The upstream HTTP
service and the transport are outside the program; one tool invocation is
a pure function of the credential, the tool arguments and the upstream's
behaviour for the one GET the tool issues. Absence of exceptions in the
handlers is reflected by all of these functions being total. -/

/-- The fixed upstream base URL (line 7). -/
def ALPHA_VANTAGE_BASE : String := "https://www.alphavantage.co/query"

/-- One content block of a tool result; the tools only ever produce
`type := "text"` blocks. -/
structure TextBlock where
  type : String
  text : String
  deriving DecidableEq

/-- A tool handler's return value: the `content` list. -/
structure ToolResult where
  content : List TextBlock
  deriving DecidableEq

/-- The `AlphaVantageParams` interface (lines 20-29): the `function`
discriminator plus the optional per-tool fields, in declaration order. -/
structure AlphaVantageParams where
  function : String
  symbol : Option String := none
  outputsize : Option String := none
  from_currency : Option String := none
  to_currency : Option String := none
  market : Option String := none
  interval : Option String := none
  deriving DecidableEq

/-- What the upstream does for the one GET a call issues: either the
request resolves and `response.data` is the value `d` (an empty body
surfaces as the empty string, `.respond (.str "")`), or the transport
faults (network error, non-2xx status, timeout) with message `e`. -/
inductive UpstreamBehavior where
  | respond : JVal → UpstreamBehavior
  | fault : String → UpstreamBehavior
  deriving DecidableEq

/-- The one HTTP GET a call issues: URL and query parameters. -/
structure HttpRequest where
  url : String
  query : List (String × String)
  deriving DecidableEq

/-- Everything observable about one `makeAlphaVantageRequest` call: the
request it issued, the value it returned, and what it logged. -/
structure GatewayOutcome where
  request : HttpRequest
  result : Option JVal
  log : List String
  deriving DecidableEq

/-- One optional field of `AlphaVantageParams` as query parameters:
axios omits `undefined` parameters. -/
def optField (k : String) : Option String → List (String × String)
  | none => []
  | some v => [(k, v)]

/-- The query parameters contributed by an `AlphaVantageParams` value, in
field order (which agrees with the literal order at every call site). -/
def paramFields (p : AlphaVantageParams) : List (String × String) :=
  ("function", p.function) ::
    (optField "symbol" p.symbol ++ optField "outputsize" p.outputsize
      ++ optField "from_currency" p.from_currency
      ++ optField "to_currency" p.to_currency
      ++ optField "market" p.market ++ optField "interval" p.interval)

/-- The diagnostic line `console.error` receives on a failed request
(line 300), carrying the triggering error. -/
def errLog (e : String) : String := "[错误] 请求 Alpha Vantage API 失败: " ++ e

/-- `makeAlphaVantageRequest` (lines 285-303): issues one GET to the fixed
base URL with the given parameters plus `apikey`; on a transport fault, or
on falsy `response.data` (the in-`try` `throw new Error('无效的响应数据')`
lands in the same `catch`), logs the error and returns `null` (`none`);
otherwise returns `response.data` unmodified. Total: every failure path is
caught inside the function. -/
def makeAlphaVantageRequest (apiKey : String) (p : AlphaVantageParams)
    (up : UpstreamBehavior) : GatewayOutcome :=
  let req : HttpRequest :=
    { url := ALPHA_VANTAGE_BASE, query := paramFields p ++ [("apikey", apiKey)] }
  match up with
  | .fault e => { request := req, result := none, log := [errLog e] }
  | .respond d =>
      if jfalsy d then
        { request := req, result := none, log := [errLog "无效的响应数据"] }
      else { request := req, result := some d, log := [] }

/-- The shared shape of every tool handler's tail (e.g. lines 44-62): if
the gateway's return value is falsy, a single text block with the tool's
failure message; otherwise a single text block with the payload
pretty-printed by `JSON.stringify(data, null, 2)`. -/
def toolRespond (failMsg : String) (r : Option JVal) : ToolResult :=
  match r with
  | none => { content := [{ type := "text", text := failMsg }] }
  | some d =>
      if jfalsy d then { content := [{ type := "text", text := failMsg }] }
      else { content := [{ type := "text", text := jsonStringify2 d }] }

/-- `get_stock_price` (lines 32-64). -/
def get_stock_price (apiKey symbol : String) (up : UpstreamBehavior) :
    GatewayOutcome × ToolResult :=
  let o := makeAlphaVantageRequest apiKey
    { function := "GLOBAL_QUOTE", symbol := some symbol } up
  (o, toolRespond "获取股票数据失败" o.result)

/-- `get_company_overview` (lines 67-99). -/
def get_company_overview (apiKey symbol : String) (up : UpstreamBehavior) :
    GatewayOutcome × ToolResult :=
  let o := makeAlphaVantageRequest apiKey
    { function := "OVERVIEW", symbol := some symbol } up
  (o, toolRespond "获取公司数据失败" o.result)

/-- `get_daily_time_series` handler body (lines 102-136), after the schema
layer has supplied `outputsize` (defaulted to `"compact"` by the
`z.enum(...).default('compact')` argument schema). -/
def get_daily_time_series (apiKey symbol outputsize : String)
    (up : UpstreamBehavior) : GatewayOutcome × ToolResult :=
  let o := makeAlphaVantageRequest apiKey
    { function := "TIME_SERIES_DAILY", symbol := some symbol,
      outputsize := some outputsize } up
  (o, toolRespond "获取时间序列数据失败" o.result)

/-- The schema layer of `get_daily_time_series`: a call without
`outputsize` reaches the handler with the declared default `"compact"`. -/
def get_daily_time_series_call (apiKey symbol : String)
    (outputsize : Option String) (up : UpstreamBehavior) :
    GatewayOutcome × ToolResult :=
  get_daily_time_series apiKey symbol (outputsize.getD "compact") up

/-- `get_weekly_time_series` (lines 139-171). -/
def get_weekly_time_series (apiKey symbol : String) (up : UpstreamBehavior) :
    GatewayOutcome × ToolResult :=
  let o := makeAlphaVantageRequest apiKey
    { function := "TIME_SERIES_WEEKLY", symbol := some symbol } up
  (o, toolRespond "获取每周时间序列数据失败" o.result)

/-- `get_forex_rate` (lines 174-208). -/
def get_forex_rate (apiKey from_currency to_currency : String)
    (up : UpstreamBehavior) : GatewayOutcome × ToolResult :=
  let o := makeAlphaVantageRequest apiKey
    { function := "CURRENCY_EXCHANGE_RATE", from_currency := some from_currency,
      to_currency := some to_currency } up
  (o, toolRespond "获取外汇汇率数据失败" o.result)

/-- `get_crypto_price` (lines 211-245). -/
def get_crypto_price (apiKey symbol market : String) (up : UpstreamBehavior) :
    GatewayOutcome × ToolResult :=
  let o := makeAlphaVantageRequest apiKey
    { function := "CRYPTO_INTRADAY", symbol := some symbol,
      market := some market } up
  (o, toolRespond "获取加密货币价格数据失败" o.result)

/-- `get_technical_indicator` handler body (lines 248-283): the upstream
`function` discriminator is the caller's `indicator` argument itself. -/
def get_technical_indicator (apiKey symbol indicatorName intervalArg : String)
    (up : UpstreamBehavior) : GatewayOutcome × ToolResult :=
  let o := makeAlphaVantageRequest apiKey
    { function := indicatorName, symbol := some symbol,
      interval := some intervalArg } up
  (o, toolRespond "获取技术指标数据失败" o.result)

/-- The schema layer of `get_technical_indicator`: `interval` defaults to
`"daily"`; `indicator` is a plain `z.string()`, validated against no
closed set. -/
def get_technical_indicator_call (apiKey symbol indicatorName : String)
    (interval : Option String) (up : UpstreamBehavior) :
    GatewayOutcome × ToolResult :=
  get_technical_indicator apiKey symbol indicatorName (interval.getD "daily") up

/-- One invocation of any of the 7 registered tools, with its
(schema-validated) handler arguments. -/
inductive ToolCall where
  | stock (symbol : String)
  | overview (symbol : String)
  | daily (symbol outputsize : String)
  | weekly (symbol : String)
  | forex (from_currency to_currency : String)
  | crypto (symbol market : String)
  | indicator (symbol indicatorName intervalArg : String)
  deriving DecidableEq

/-- Dispatch a tool invocation to its handler. -/
def runTool (apiKey : String) (up : UpstreamBehavior) :
    ToolCall → GatewayOutcome × ToolResult
  | .stock s => get_stock_price apiKey s up
  | .overview s => get_company_overview apiKey s up
  | .daily s o => get_daily_time_series apiKey s o up
  | .weekly s => get_weekly_time_series apiKey s up
  | .forex f t => get_forex_rate apiKey f t up
  | .crypto s m => get_crypto_price apiKey s m up
  | .indicator s ind itv => get_technical_indicator apiKey s ind itv up

/-- The fixed failure message of each tool, as written in the source. -/
def toolFailMsg : ToolCall → String
  | .stock _ => "获取股票数据失败"
  | .overview _ => "获取公司数据失败"
  | .daily _ _ => "获取时间序列数据失败"
  | .weekly _ => "获取每周时间序列数据失败"
  | .forex _ _ => "获取外汇汇率数据失败"
  | .crypto _ _ => "获取加密货币价格数据失败"
  | .indicator _ _ _ => "获取技术指标数据失败"

/-- The seven failure messages, ordered by registration order. -/
def allFailMsgs : List String :=
  ["获取股票数据失败", "获取公司数据失败", "获取时间序列数据失败",
   "获取每周时间序列数据失败", "获取外汇汇率数据失败",
   "获取加密货币价格数据失败", "获取技术指标数据失败"]

/-- How the process start goes (lines 8-12 and 305-313): missing
credential throws at module top level — before any `server.tool`
registration and before `main()` connects the transport. The JavaScript
truthiness test `!API_KEY` also fires on an empty string. -/
inductive StartupOutcome where
  | fatal : String → StartupOutcome
  | running : String → StartupOutcome
  deriving DecidableEq

/-- The startup diagnostic (line 11). -/
def API_KEY_ERROR : String := "ALPHA_VANTAGE_API_KEY 环境变量是必需的"

/-- Module evaluation as a function of `process.env.ALPHA_VANTAGE_API_KEY`. -/
def startup (env : Option String) : StartupOutcome :=
  match env with
  | none => .fatal API_KEY_ERROR
  | some k => if k = "" then .fatal API_KEY_ERROR else .running k

/-- The registered tool names, in registration order (lines 32-283); when
startup is fatal the registration code is never reached. -/
def registeredTools : StartupOutcome → List String
  | .fatal _ => []
  | .running _ =>
      ["get_stock_price", "get_company_overview", "get_daily_time_series",
       "get_weekly_time_series", "get_forex_rate", "get_crypto_price",
       "get_technical_indicator"]

/-- Whether `main()` ran and connected the stdio transport (lines
305-309); a fatal startup never reaches it. -/
def transportConnected : StartupOutcome → Bool
  | .fatal _ => false
  | .running _ => true


/-! ## Facts about the server model -/

/-- The parameters each tool hands to the gateway, exactly as at the call
sites in the source. -/
def toolParams : ToolCall → AlphaVantageParams
  | .stock s => { function := "GLOBAL_QUOTE", symbol := some s }
  | .overview s => { function := "OVERVIEW", symbol := some s }
  | .daily s o =>
      { function := "TIME_SERIES_DAILY", symbol := some s, outputsize := some o }
  | .weekly s => { function := "TIME_SERIES_WEEKLY", symbol := some s }
  | .forex f t =>
      { function := "CURRENCY_EXCHANGE_RATE", from_currency := some f,
        to_currency := some t }
  | .crypto s m =>
      { function := "CRYPTO_INTRADAY", symbol := some s, market := some m }
  | .indicator s ind itv =>
      { function := ind, symbol := some s, interval := some itv }

/-- Every tool is one gateway call followed by the shared response shape. -/
theorem runTool_eq (apiKey : String) (up : UpstreamBehavior) (c : ToolCall) :
    runTool apiKey up c
      = (makeAlphaVantageRequest apiKey (toolParams c) up,
         toolRespond (toolFailMsg c)
           (makeAlphaVantageRequest apiKey (toolParams c) up).result) := by
  cases c <;> rfl

/-- The gateway only ever hands a tool a truthy payload: every falsy
`response.data` was converted to `null` inside the gateway. -/
theorem gateway_truthy {apiKey : String} {p : AlphaVantageParams}
    {up : UpstreamBehavior} {d : JVal}
    (h : (makeAlphaVantageRequest apiKey p up).result = some d) :
    jfalsy d = false := by
  cases up with
  | fault e => simp [makeAlphaVantageRequest] at h
  | respond e =>
      by_cases hf : jfalsy e
      · simp [makeAlphaVantageRequest, hf] at h
      · simp [makeAlphaVantageRequest, hf] at h
        rw [← h]
        exact Bool.not_eq_true _ ▸ (by simpa using hf)

/-- The request a gateway call issues, independent of how the upstream
behaves: the tool's parameters plus the credential. -/
theorem gateway_request (apiKey : String) (p : AlphaVantageParams)
    (up : UpstreamBehavior) :
    (makeAlphaVantageRequest apiKey p up).request
      = { url := ALPHA_VANTAGE_BASE,
          query := paramFields p ++ [("apikey", apiKey)] } := by
  cases up with
  | fault e => rfl
  | respond d => by_cases h : jfalsy d <;> simp [makeAlphaVantageRequest, h]

/-- When the gateway returns `null`, a tool answers with its fixed failure
message in a single text block. -/
theorem runTool_failure_response (apiKey : String) (c : ToolCall)
    (up : UpstreamBehavior) (h : (runTool apiKey up c).1.result = none) :
    (runTool apiKey up c).2
      = { content := [{ type := "text", text := toolFailMsg c }] } := by
  rw [runTool_eq] at h ⊢
  rw [h]
  rfl


/-! ## The claims -/

/-- C1: for every one of the 7 tools, when the Request Gateway returns a
non-empty payload, the tool's result is a content list with exactly one
text block whose text is that payload serialized as indented JSON
(`JSON.stringify` with 2-space indentation), and parsing that text back
yields the original payload structure. -/
theorem C1_success_response_is_roundtrip_json (apiKey : String) (c : ToolCall)
    (up : UpstreamBehavior) (d : JVal)
    (h : (runTool apiKey up c).1.result = some d) :
    (runTool apiKey up c).2
        = { content := [{ type := "text", text := jsonStringify2 d }] }
      ∧ jsonParse (jsonStringify2 d) = some d := by
  refine ⟨?_, jsonParse_jsonStringify2 d⟩
  rw [runTool_eq] at h ⊢
  have hf : jfalsy d = false := gateway_truthy h
  rw [h]
  simp [toolRespond, hf]

/-- Witness for C1 at a concrete call: `get_stock_price` with a mocked
payload `true`. -/
theorem C1_witness :
    (runTool "k" (.respond (.bool true)) (.stock "AAPL")).1.result
        = some (.bool true)
      ∧ ((runTool "k" (.respond (.bool true)) (.stock "AAPL")).2
          = { content := [{ type := "text", text := jsonStringify2 (.bool true) }] }
        ∧ jsonParse (jsonStringify2 (.bool true)) = some (.bool true)) :=
  ⟨rfl, C1_success_response_is_roundtrip_json "k" (.stock "AAPL")
    (.respond (.bool true)) (.bool true) rfl⟩

/-- C2: for every one of the 7 tools, when the Request Gateway returns
absence-of-value, the tool's result is a content list with exactly one
text block containing a fixed, tool-specific failure message; the 7
failure strings are pairwise distinct. No exception propagates out of a
handler: every handler is a total function into `ToolResult`. -/
theorem C2_failure_fixed_distinct_messages :
    (∀ (apiKey : String) (c : ToolCall) (up : UpstreamBehavior),
        (runTool apiKey up c).1.result = none →
        (runTool apiKey up c).2
          = { content := [{ type := "text", text := toolFailMsg c }] })
      ∧ allFailMsgs.Nodup
      ∧ allFailMsgs.length = 7
      ∧ ∀ c : ToolCall, toolFailMsg c ∈ allFailMsgs := by
  refine ⟨runTool_failure_response, by decide, rfl, ?_⟩
  intro c
  cases c <;> simp [toolFailMsg, allFailMsgs]

/-- Witness for C2 at a concrete call: `get_stock_price` against a
transport fault. -/
theorem C2_witness :
    (runTool "k" (.fault "ECONNREFUSED") (.stock "AAPL")).1.result = none
      ∧ (runTool "k" (.fault "ECONNREFUSED") (.stock "AAPL")).2
          = { content := [{ type := "text",
                            text := toolFailMsg (.stock "AAPL") }] } :=
  ⟨rfl, C2_failure_fixed_distinct_messages.1 "k" (.stock "AAPL")
    (.fault "ECONNREFUSED") rfl⟩

/-- C3 counterexample: a response whose (non-empty) body is `0` parses to
the falsy value `0`, and the gateway returns `none` instead of the parsed
payload — refuting "on a response with a non-empty body it returns the
parsed payload unmodified" as universally stated. -/
theorem C3_counterexample :
    ¬ ((makeAlphaVantageRequest "k" { function := "GLOBAL_QUOTE" }
        (.respond (.num 0))).result = some (.num 0)) := by
  decide

/-- C3 (amended): the Request Gateway never propagates an exception (it
is a total function); on a transport fault it logs the triggering error
and returns `none`; on a response whose parsed body is falsy — the empty
body included — it logs a diagnostic and returns `none`; on a response
with a truthy parsed body it returns the parsed payload unmodified and
logs nothing. -/
theorem C3_amended_gateway_contract (apiKey : String) (p : AlphaVantageParams)
    (up : UpstreamBehavior) :
    (∀ e, up = .fault e →
        (makeAlphaVantageRequest apiKey p up).result = none
          ∧ (makeAlphaVantageRequest apiKey p up).log = [errLog e])
      ∧ (∀ d, up = .respond d → jfalsy d = true →
        (makeAlphaVantageRequest apiKey p up).result = none
          ∧ (makeAlphaVantageRequest apiKey p up).log = [errLog "无效的响应数据"])
      ∧ (∀ d, up = .respond d → jfalsy d = false →
        (makeAlphaVantageRequest apiKey p up).result = some d
          ∧ (makeAlphaVantageRequest apiKey p up).log = []) := by
  refine ⟨?_, ?_, ?_⟩
  · rintro e rfl
    exact ⟨rfl, rfl⟩
  · rintro d rfl hf
    constructor <;> simp [makeAlphaVantageRequest, hf]
  · rintro d rfl hf
    constructor <;> simp [makeAlphaVantageRequest, hf]

/-- Witness for the amended C3 at a concrete fault. -/
theorem C3_amended_witness :
    (makeAlphaVantageRequest "k" { function := "OVERVIEW" }
        (.fault "timeout")).result = none
      ∧ (makeAlphaVantageRequest "k" { function := "OVERVIEW" }
          (.fault "timeout")).log = [errLog "timeout"] :=
  (C3_amended_gateway_contract "k" { function := "OVERVIEW" }
    (.fault "timeout")).1 "timeout" rfl

/-- C4: if the credential environment variable is absent at startup, the
process terminates with a diagnostic before registering the transport, so
no tool is ever reachable (no tool registered, transport never
connected); and per-call failures never terminate the process — every
invocation, whatever the upstream does, returns an ordinary one-block
tool result. -/
theorem C4_missing_credential_fatal :
    startup none = .fatal API_KEY_ERROR
      ∧ registeredTools (startup none) = []
      ∧ transportConnected (startup none) = false
      ∧ ∀ (apiKey : String) (c : ToolCall) (up : UpstreamBehavior),
          (runTool apiKey up c).2.content.length = 1 := by
  refine ⟨rfl, rfl, rfl, ?_⟩
  intro apiKey c up
  rw [runTool_eq]
  cases h : (makeAlphaVantageRequest apiKey (toolParams c) up).result with
  | none => rfl
  | some d => by_cases hf : jfalsy d <;> simp [toolRespond, hf]

/-- C5: every request a tool invocation issues carries exactly one
`function` discriminator and exactly one `apikey` entry, equal to the
credential the startup read; in the fatal startup state no tool exists to
issue a request at all. -/
theorem C5_request_credential_invariant (env : Option String) (k : String)
    (_hs : startup env = .running k) (c : ToolCall) (up : UpstreamBehavior) :
    ((runTool k up c).1.request.query.filter
        (fun q => q.1 = "function")).length = 1
      ∧ (runTool k up c).1.request.query.filter (fun q => q.1 = "apikey")
          = [("apikey", k)] := by
  rw [runTool_eq]
  rw [gateway_request]
  cases c <;> simp [toolParams, paramFields, optField]

/-- Witness for C5: a `get_forex_rate` call under a started server. -/
theorem C5_witness :
    ((runTool "secret" (.fault "x") (.forex "USD" "EUR")).1.request.query.filter
        (fun q => q.1 = "function")).length = 1
      ∧ (runTool "secret" (.fault "x")
          (.forex "USD" "EUR")).1.request.query.filter (fun q => q.1 = "apikey")
          = [("apikey", "secret")] :=
  C5_request_credential_invariant (some "secret") "secret" (by decide)
    (.forex "USD" "EUR") (.fault "x")

/-- C6: `get_daily_time_series` invoked without `outputsize` passes
`outputsize=compact` to the Request Gateway, alongside
`function=TIME_SERIES_DAILY`, the given symbol, and the credential. -/
theorem C6_daily_default_outputsize (apiKey symbol : String)
    (up : UpstreamBehavior) :
    (get_daily_time_series_call apiKey symbol none up).1.request.query
      = [("function", "TIME_SERIES_DAILY"), ("symbol", symbol),
         ("outputsize", "compact"), ("apikey", apiKey)] := by
  show (get_daily_time_series apiKey symbol "compact" up).1.request.query = _
  have h := gateway_request apiKey
    { function := "TIME_SERIES_DAILY", symbol := some symbol,
      outputsize := some "compact" } up
  simp [get_daily_time_series, h, paramFields, optField]

/-- C7: `get_technical_indicator` uses the caller-supplied `indicator`
value itself as the upstream `function` discriminator — for every string,
not a member of any closed set — and it is the only `function` entry. -/
theorem C7_indicator_passthrough (apiKey symbol indicatorName : String)
    (interval : Option String) (up : UpstreamBehavior) :
    (get_technical_indicator_call apiKey symbol indicatorName interval
        up).1.request.query.filter (fun q => q.1 = "function")
      = [("function", indicatorName)] := by
  show (get_technical_indicator apiKey symbol indicatorName
      (interval.getD "daily") up).1.request.query.filter _ = _
  have h := gateway_request apiKey
    { function := indicatorName, symbol := some symbol,
      interval := some (interval.getD "daily") } up
  simp [get_technical_indicator, h, paramFields, optField]

/-- C8: `get_forex_rate "USD" "EUR"` issues exactly one GET, to the fixed
base URL, whose query is exactly `function=CURRENCY_EXCHANGE_RATE`,
`from_currency=USD`, `to_currency=EUR` and the credential — no other
fields. (The model issues exactly one request per invocation by
construction: one `GatewayOutcome` carries one `HttpRequest`.) -/
theorem C8_forex_request (apiKey : String) (up : UpstreamBehavior) :
    (get_forex_rate apiKey "USD" "EUR" up).1.request
      = { url := ALPHA_VANTAGE_BASE,
          query := [("function", "CURRENCY_EXCHANGE_RATE"),
                    ("from_currency", "USD"), ("to_currency", "EUR"),
                    ("apikey", apiKey)] } := by
  have h := gateway_request apiKey
    { function := "CURRENCY_EXCHANGE_RATE", from_currency := some "USD",
      to_currency := some "EUR" } up
  simp [get_forex_rate, h, paramFields, optField]

/-- C9: any two failing invocations of the same tool with the same
arguments produce identical responses, whatever the failure causes were:
the cause never flows into the response text. -/
theorem C9_failures_indistinguishable (apiKey : String) (c : ToolCall)
    (up1 up2 : UpstreamBehavior)
    (h1 : (runTool apiKey up1 c).1.result = none)
    (h2 : (runTool apiKey up2 c).1.result = none) :
    (runTool apiKey up1 c).2 = (runTool apiKey up2 c).2 :=
  (runTool_failure_response apiKey c up1 h1).trans
    (runTool_failure_response apiKey c up2 h2).symm

/-- Witness for C9: a network fault and an empty upstream body yield the
same `get_weekly_time_series` response. -/
theorem C9_witness :
    (runTool "k" (.fault "ECONNRESET") (.weekly "AAPL")).1.result = none
      ∧ (runTool "k" (.respond (.str "")) (.weekly "AAPL")).1.result = none
      ∧ (runTool "k" (.fault "ECONNRESET") (.weekly "AAPL")).2
          = (runTool "k" (.respond (.str "")) (.weekly "AAPL")).2 :=
  ⟨rfl, rfl, C9_failures_indistinguishable "k" (.weekly "AAPL")
    (.fault "ECONNRESET") (.respond (.str "")) rfl rfl⟩

/-- C10: a response with a body whose parsed value is falsy (`0`,
`false`, `null` or the empty string — exactly the values `jfalsy`
accepts) is treated as failure: the gateway returns `none` and the tool
reports its failure message even though a body was present. -/
theorem C10_falsy_body_is_failure (apiKey : String) (c : ToolCall) (d : JVal)
    (h : jfalsy d = true) :
    (runTool apiKey (.respond d) c).1.result = none
      ∧ (runTool apiKey (.respond d) c).2
          = { content := [{ type := "text", text := toolFailMsg c }] } := by
  have h1 : (runTool apiKey (.respond d) c).1.result = none := by
    rw [runTool_eq]
    simp [makeAlphaVantageRequest, h]
  exact ⟨h1, runTool_failure_response apiKey c (.respond d) h1⟩

/-- Witness for C10: body `0` makes `get_company_overview` fail. -/
theorem C10_witness :
    (runTool "k" (.respond (.num 0)) (.overview "MSFT")).1.result = none
      ∧ (runTool "k" (.respond (.num 0)) (.overview "MSFT")).2
          = { content := [{ type := "text",
                            text := toolFailMsg (.overview "MSFT") }] } :=
  C10_falsy_body_is_failure "k" (.overview "MSFT") (.num 0) rfl

end AlphaVantage
